import Mathlib

/-!
Shallow embedding of the guraNotes backend (`src/server.js`).

The source file contains two route implementations: variant A
(ESM style, first half of the file) and variant B (CommonJS style,
second half).  Both are embedded here.

Modelling conventions:
* A MongoDB collection is a list of records in natural (insertion)
  order; `List.find?` embeds `findOne` / `findById`, `List.eraseP`
  embeds `deleteOne`, and `updateFirst` below embeds
  `findOneAndUpdate`.
* ObjectIds and timestamps are natural numbers; fresh ids are passed
  in explicitly (`freshId` / `NoteStore.nextId`).
* `bcrypt` is external: `hash` is a parameter `hashF`, `compare` a
  parameter `compare`.  `bcrypt.compare` rejects when its data
  argument is missing, which the embedding records as
  `AccountResp.exception`.
* JWTs are modelled by their payload `\x7bid, type\x7d`; signing and
  verification are external and never inspected by the handlers.
* A JSON body field that may be absent is an `Option String`.
  Mongoose strips `undefined` keys from `findOneAndUpdate` update
  documents (`mergeField`), while assigning `undefined` to a document
  field before `save()` unsets it (variant B update).
-/

/-- The `ownerType` tag of a note and the `type` claim of a token:
`"user"` or `"drawer"`. -/
inductive OwnerType where
  | user
  | drawer
deriving DecidableEq

/-- The authenticated identity attached to a request by the auth
middleware: the decoded token payload `\x7bid, type\x7d`. -/
structure Principal where
  type : OwnerType
  id : Nat
deriving DecidableEq

/-- A document of the `Note` collection (variant B schema, a superset
of variant A's: variant A has no `updatedAt` path and never sets it). -/
structure Note where
  id : Nat
  ownerType : OwnerType
  ownerId : Nat
  title : Option String
  content : Option String
  createdAt : Nat
  updatedAt : Option Nat
deriving DecidableEq

/-- The `Note` collection together with the next fresh ObjectId. -/
structure NoteStore where
  notes : List Note
  nextId : Nat
deriving DecidableEq

/-- A document of the `User` collection. -/
structure User where
  id : Nat
  email : String
  passwordHash : String
deriving DecidableEq

/-- A document of the `Drawer` collection. -/
structure Drawer where
  id : Nat
  drawerName : String
  passwordHash : String
deriving DecidableEq

/-- Outcome of an account endpoint: a 400 JSON error, a 200 response
carrying the signed token's payload, or an uncaught exception escaping
the handler. -/
inductive AccountResp where
  | badRequest (msg : String)
  | okToken (id : Nat) (type : OwnerType)
  | exception
deriving DecidableEq

/-- Outcome of the variant B update handler. -/
inductive NoteResp where
  | notFound
  | forbidden
  | ok (n : Note)
deriving DecidableEq

/-- Outcome of a delete handler. -/
inductive DeleteResp where
  | success
  | notFound
  | forbidden
deriving DecidableEq

/-- JavaScript falsiness of an optional string body field:
`undefined` and `""` are falsy (`!email`, `!password`, ...). -/
def falsy : Option String → Bool
  | none => true
  | some s => s == ""

/-- `findOneAndUpdate`: replace the first element matching `q` by its
image under `f`, returning the new list and (with `new: true`) the
updated document, or `none` when nothing matched. -/
def updateFirst (q : Note → Bool) (f : Note → Note) : List Note → List Note × Option Note
  | [] => ([], none)
  | n :: ns =>
    if q n then (f n :: ns, some (f n))
    else
      let r := updateFirst q f ns
      (n :: r.1, r.2)

/-- Mongoose strips `undefined` keys from an update document, so an
absent body field leaves the stored field unchanged. -/
def mergeField (v old : Option String) : Option String :=
  match v with
  | some s => some s
  | none => old

/-- Variant A `GET /api/notes`:
`Note.find(\x7bownerType: req.user.type, ownerId: req.user.id\x7d)`, no sort,
hence natural (insertion) order. -/
def listNotesA (s : NoteStore) (p : Principal) : List Note :=
  s.notes.filter fun n => n.ownerType == p.type && n.ownerId == p.id

/-- Insert a note into a list that is sorted newest-first, keeping it
sorted (helper for the embedding of `.sort(\x7bcreatedAt: -1\x7d)`). -/
def insertNoteDesc (n : Note) : List Note → List Note
  | [] => [n]
  | m :: ms => if m.createdAt ≤ n.createdAt then n :: m :: ms else m :: insertNoteDesc n ms

/-- Sort notes by `createdAt` descending: the embedding of MongoDB's
`.sort(\x7bcreatedAt: -1\x7d)`. -/
def sortNewestFirst : List Note → List Note
  | [] => []
  | n :: ns => insertNoteDesc n (sortNewestFirst ns)

/-- Variant B `GET /api/notes`:
`Note.find(\x7bownerType: type, ownerId: id\x7d).sort(\x7bcreatedAt: -1\x7d)`. -/
def listNotesB (s : NoteStore) (p : Principal) : List Note :=
  sortNewestFirst (s.notes.filter fun n => n.ownerType == p.type && n.ownerId == p.id)

/-- `POST /api/notes` (identical in both variants): owner pair taken
from the token, `title`/`content` defaulting to `""` when absent
(`req.body.title || ""` in A, destructuring defaults in B), fresh id,
creation timestamp `now`. -/
def createNote (s : NoteStore) (p : Principal) (title content : Option String) (now : Nat) :
    NoteStore × Note :=
  let n : Note :=
    { id := s.nextId, ownerType := p.type, ownerId := p.id,
      title := some (title.getD ""), content := some (content.getD ""),
      createdAt := now, updatedAt := none }
  ({ notes := s.notes ++ [n], nextId := s.nextId + 1 }, n)

/-- Variant A `PUT /api/notes/:id`:
`Note.findOneAndUpdate(\x7b_id: req.params.id, ownerId: req.user.id\x7d,
\x7btitle, content\x7d, \x7bnew: true\x7d)` — the filter checks `ownerId` but not
`ownerType` — then `res.json(n)` (HTTP 200 whether or not `n` is null). -/
def updateNoteA (s : NoteStore) (p : Principal) (noteId : Nat)
    (title content : Option String) : NoteStore × Option Note :=
  let r := updateFirst (fun n => n.id == noteId && n.ownerId == p.id)
    (fun n => { n with title := mergeField title n.title,
                       content := mergeField content n.content })
    s.notes
  ({ s with notes := r.1 }, r.2)

/-- Variant B `PUT /api/notes/:id`: `findById`, 404 when absent, 403
when the owner pair does not match the token, otherwise assign
`title`/`content` as given (an absent field unsets the path), stamp
`updatedAt`, save, and return the updated note. -/
def updateNoteB (s : NoteStore) (p : Principal) (noteId : Nat)
    (title content : Option String) (now : Nat) : NoteStore × NoteResp :=
  match s.notes.find? (fun n => n.id == noteId) with
  | none => (s, .notFound)
  | some note =>
    if note.ownerId != p.id || note.ownerType != p.type then (s, .forbidden)
    else
      let updated := { note with title := title, content := content, updatedAt := some now }
      let r := updateFirst (fun n => n.id == noteId) (fun _ => updated) s.notes
      ({ s with notes := r.1 }, .ok updated)

/-- Variant A `DELETE /api/notes/:id`:
`Note.deleteOne(\x7b_id: req.params.id, ownerId: req.user.id\x7d)` then
`res.json(\x7bsuccess: true\x7d)` unconditionally. -/
def deleteNoteA (s : NoteStore) (p : Principal) (noteId : Nat) : NoteStore × DeleteResp :=
  ({ s with notes := s.notes.eraseP (fun n => n.id == noteId && n.ownerId == p.id) },
   .success)

/-- Variant B `DELETE /api/notes/:id`: `findById`, 404 when absent,
403 when the owner pair does not match, otherwise
`Note.deleteOne(\x7b_id: noteId\x7d)` and `\x7bsuccess: true\x7d`. -/
def deleteNoteB (s : NoteStore) (p : Principal) (noteId : Nat) : NoteStore × DeleteResp :=
  match s.notes.find? (fun n => n.id == noteId) with
  | none => (s, .notFound)
  | some note =>
    if note.ownerId != p.id || note.ownerType != p.type then (s, .forbidden)
    else ({ s with notes := s.notes.eraseP (fun n => n.id == noteId) }, .success)

/-- Variant A `POST /api/register`: field validation, duplicate check,
hash, insert, token `\x7btype: "user", id\x7d`. -/
def registerA (hashF : String → String) (users : List User) (freshId : Nat)
    (email password : Option String) : List User × AccountResp :=
  if falsy email || falsy password then (users, .badRequest "Email and password required")
  else
    let e := email.getD ""
    let pw := password.getD ""
    match users.find? (fun u => u.email == e) with
    | some _ => (users, .badRequest "User already exists")
    | none =>
      (users ++ [{ id := freshId, email := e, passwordHash := hashF pw }],
       .okToken freshId .user)

/-- Variant B `POST /api/register`: same shape as variant A with
different messages. -/
def registerB (hashF : String → String) (users : List User) (freshId : Nat)
    (email password : Option String) : List User × AccountResp :=
  if falsy email || falsy password then (users, .badRequest "email and password required")
  else
    let e := email.getD ""
    let pw := password.getD ""
    match users.find? (fun u => u.email == e) with
    | some _ => (users, .badRequest "Email already in use")
    | none =>
      (users ++ [{ id := freshId, email := e, passwordHash := hashF pw }],
       .okToken freshId .user)

/-- Variant A `POST /api/drawers/create`. -/
def createDrawerA (hashF : String → String) (drawers : List Drawer) (freshId : Nat)
    (drawerName password : Option String) : List Drawer × AccountResp :=
  if falsy drawerName || falsy password then
    (drawers, .badRequest "Drawer name and password required")
  else
    let dn := drawerName.getD ""
    let pw := password.getD ""
    match drawers.find? (fun d => d.drawerName == dn) with
    | some _ => (drawers, .badRequest "Drawer already exists")
    | none =>
      (drawers ++ [{ id := freshId, drawerName := dn, passwordHash := hashF pw }],
       .okToken freshId .drawer)

/-- Variant B `POST /api/drawers`. -/
def createDrawerB (hashF : String → String) (drawers : List Drawer) (freshId : Nat)
    (drawerName password : Option String) : List Drawer × AccountResp :=
  if falsy drawerName || falsy password then
    (drawers, .badRequest "drawerName and password required")
  else
    let dn := drawerName.getD ""
    let pw := password.getD ""
    match drawers.find? (fun d => d.drawerName == dn) with
    | some _ => (drawers, .badRequest "Drawer name taken")
    | none =>
      (drawers ++ [{ id := freshId, drawerName := dn, passwordHash := hashF pw }],
       .okToken freshId .drawer)

/-- A Mongo filter `\x7bemail: <value>\x7d` where the value may be
`undefined`: mongoose strips `undefined` conditions, so a missing
email matches every document. -/
def matchEmail (email : Option String) (u : User) : Bool :=
  match email with
  | some e => u.email == e
  | none => true

/-- Same for `\x7bdrawerName: <value>\x7d`. -/
def matchDrawerName (drawerName : Option String) (d : Drawer) : Bool :=
  match drawerName with
  | some dn => d.drawerName == dn
  | none => true

/-- Variant A `POST /api/login`: no field validation; distinct errors
for unknown email and wrong password; `bcrypt.compare` with a missing
password argument raises, uncaught (no try/catch in this handler). -/
def loginA (compare : String → String → Bool) (users : List User)
    (email password : Option String) : AccountResp :=
  match users.find? (matchEmail email) with
  | none => .badRequest "User not found"
  | some u =>
    match password with
    | none => .exception
    | some pw =>
      if compare pw u.passwordHash then .okToken u.id .user
      else .badRequest "Wrong password"

/-- Variant A `POST /api/drawers/login`: same shape as `loginA`. -/
def loginDrawerA (compare : String → String → Bool) (drawers : List Drawer)
    (drawerName password : Option String) : AccountResp :=
  match drawers.find? (matchDrawerName drawerName) with
  | none => .badRequest "Drawer not found"
  | some d =>
    match password with
    | none => .exception
    | some pw =>
      if compare pw d.passwordHash then .okToken d.id .drawer
      else .badRequest "Wrong password"

/-- Variant B `POST /api/login`: field validation first, then one
generic `Invalid credentials` message for both unknown email and
password mismatch. -/
def loginB (compare : String → String → Bool) (users : List User)
    (email password : Option String) : AccountResp :=
  if falsy email || falsy password then .badRequest "email and password required"
  else
    let e := email.getD ""
    let pw := password.getD ""
    match users.find? (fun u => u.email == e) with
    | none => .badRequest "Invalid credentials"
    | some u =>
      if compare pw u.passwordHash then .okToken u.id .user
      else .badRequest "Invalid credentials"

/-- Variant B `POST /api/drawers/login`. -/
def loginDrawerB (compare : String → String → Bool) (drawers : List Drawer)
    (drawerName password : Option String) : AccountResp :=
  if falsy drawerName || falsy password then .badRequest "drawerName and password required"
  else
    let dn := drawerName.getD ""
    let pw := password.getD ""
    match drawers.find? (fun d => d.drawerName == dn) with
    | none => .badRequest "Invalid credentials"
    | some d =>
      if compare pw d.passwordHash then .okToken d.id .drawer
      else .badRequest "Invalid credentials"

/-- A note-store mutating request, by either variant's handler. -/
inductive Op where
  | create (p : Principal) (title content : Option String) (now : Nat)
  | updateA (p : Principal) (noteId : Nat) (title content : Option String)
  | updateB (p : Principal) (noteId : Nat) (title content : Option String) (now : Nat)
  | deleteA (p : Principal) (noteId : Nat)
  | deleteB (p : Principal) (noteId : Nat)

/-- The state transition of one request. -/
def applyOp (s : NoteStore) : Op → NoteStore
  | .create p title content now => (createNote s p title content now).1
  | .updateA p noteId title content => (updateNoteA s p noteId title content).1
  | .updateB p noteId title content now => (updateNoteB s p noteId title content now).1
  | .deleteA p noteId => (deleteNoteA s p noteId).1
  | .deleteB p noteId => (deleteNoteB s p noteId).1

/-- A sequence of requests. -/
def applyOps (s : NoteStore) (ops : List Op) : NoteStore :=
  ops.foldl applyOp s

/-- The owner pair currently stored under a note id, if any. -/
def pairAtList (l : List Note) (noteId : Nat) : Option (OwnerType × Nat) :=
  (l.find? fun n => n.id == noteId).map fun n => (n.ownerType, n.ownerId)

/-- The owner pair stored under a note id in a store. -/
def ownerPairAt (s : NoteStore) (noteId : Nat) : Option (OwnerType × Nat) :=
  pairAtList s.notes noteId

/-- Store well-formedness: ids are distinct (ObjectId uniqueness) and
below the fresh-id counter. -/
def WF (s : NoteStore) : Prop :=
  (s.notes.map Note.id).Nodup ∧ ∀ n ∈ s.notes, n.id < s.nextId

/-- The identity-relevant projection of a note. -/
def ownerView (n : Note) : Nat × OwnerType × Nat :=
  (n.id, n.ownerType, n.ownerId)

/-- Newest-first order by creation time. -/
def NewestFirst (l : List Note) : Prop :=
  l.Pairwise fun a b => b.createdAt ≤ a.createdAt

/-- A demo note owned by the drawer with id 5. -/
def noteD5 : Note :=
  { id := 0, ownerType := .drawer, ownerId := 5, title := some "t",
    content := some "c", createdAt := 0, updatedAt := none }

/-- A demo note created at time 0, stored first. -/
def noteOld : Note :=
  { id := 0, ownerType := .user, ownerId := 1, title := some "old",
    content := some "", createdAt := 0, updatedAt := none }

/-- A demo note created at time 5, stored second. -/
def noteNew : Note :=
  { id := 1, ownerType := .user, ownerId := 1, title := some "new",
    content := some "", createdAt := 5, updatedAt := none }

/-- A demo registered user. -/
def demoUser : User := { id := 0, email := "a@x.com", passwordHash := "pw1" }

/-- A demo user collection. -/
def demoUsers : List User := [demoUser]

/-- A demo stand-in for the external bcrypt compare. -/
def strEq : String → String → Bool := fun a b => a == b

/-! ### Helper lemmas about the store primitives -/

theorem updateFirst_snd (q : Note → Bool) (f : Note → Note) (l : List Note) :
    (updateFirst q f l).2 = (l.find? q).map f := by
  induction l with
  | nil => rfl
  | cons n ns ih =>
    cases hq : q n <;> simp [updateFirst, List.find?_cons, hq, ih]

theorem updateFirst_fst_of_none (q : Note → Bool) (f : Note → Note) (l : List Note)
    (h : l.find? q = none) : (updateFirst q f l).1 = l := by
  induction l with
  | nil => rfl
  | cons n ns ih =>
    cases hq : q n
    · rw [List.find?_cons, hq] at h
      simp [updateFirst, hq, ih h]
    · rw [List.find?_cons, hq] at h
      cases h

theorem mem_updateFirst_of_neg (q : Note → Bool) (f : Note → Note) (l : List Note)
    (note : Note) (hmem : note ∈ l) (hq : q note = false) :
    note ∈ (updateFirst q f l).1 := by
  induction l with
  | nil => cases hmem
  | cons n ns ih =>
    rcases List.mem_cons.mp hmem with rfl | hmem'
    · simp [updateFirst, hq]
    · cases hqn : q n
      · simp only [updateFirst, hqn, if_neg Bool.false_ne_true]
        exact List.mem_cons_of_mem n (ih hmem')
      · simp only [updateFirst, hqn, if_pos rfl]
        exact List.mem_cons_of_mem _ hmem'

theorem find?_updateFirst (q : Note → Bool) (f : Note → Note) (l : List Note) (n : Note)
    (h : l.find? q = some n) (hf : q (f n) = true) :
    (updateFirst q f l).1.find? q = some (f n) := by
  induction l with
  | nil => cases h
  | cons m ms ih =>
    cases hq : q m
    · rw [List.find?_cons, hq] at h
      simp only [updateFirst, hq, if_neg Bool.false_ne_true]
      rw [List.find?_cons, hq]
      exact ih h
    · rw [List.find?_cons, hq] at h
      cases h
      simp [updateFirst, hq, List.find?_cons, hf]

theorem updateFirst_map_ownerView (q : Note → Bool) (f : Note → Note)
    (hf : ∀ n, ownerView (f n) = ownerView n) (l : List Note) :
    (updateFirst q f l).1.map ownerView = l.map ownerView := by
  induction l with
  | nil => rfl
  | cons n ns ih =>
    cases hq : q n
    · simp [updateFirst, hq, ih]
    · simp [updateFirst, hq, hf]

theorem pairAtList_congr (l₁ l₂ : List Note)
    (h : l₁.map ownerView = l₂.map ownerView) (noteId : Nat) :
    pairAtList l₁ noteId = pairAtList l₂ noteId := by
  induction l₁ generalizing l₂ with
  | nil =>
    cases l₂ with
    | nil => rfl
    | cons m ms => simp at h
  | cons n ns ih =>
    cases l₂ with
    | nil => simp at h
    | cons m ms =>
      simp only [List.map_cons, List.cons.injEq] at h
      obtain ⟨hv, hrest⟩ := h
      simp only [ownerView, Prod.mk.injEq] at hv
      obtain ⟨hid, hty, hoid⟩ := hv
      cases hmatch : (m.id == noteId)
      · have h2 := ih ms hrest
        simp only [pairAtList, List.find?_cons, hid, hmatch]
        simpa [pairAtList] using h2
      · simp [pairAtList, List.find?_cons, hid, hmatch, hty, hoid]

theorem pairAtList_append_right (l l' : List Note) (noteId : Nat)
    (pr : OwnerType × Nat) (h : pairAtList l noteId = some pr) :
    pairAtList (l ++ l') noteId = some pr := by
  simp only [pairAtList, List.find?_append] at h ⊢
  cases hfind : l.find? fun n => n.id == noteId with
  | none => rw [hfind] at h; cases h
  | some n => rw [hfind] at h; simpa [Option.or] using h

theorem pairAtList_none_append (l l' : List Note) (noteId : Nat)
    (h : pairAtList l noteId = none)
    (h' : ∀ n ∈ l', (n.id == noteId) = false) :
    pairAtList (l ++ l') noteId = none := by
  simp only [pairAtList, List.find?_append] at h ⊢
  rw [Option.map_eq_none'] at h
  rw [h, List.find?_eq_none.mpr]
  · rfl
  · intro x hx
    simp [h' x hx]

theorem pairAtList_eraseP (q : Note → Bool) (l : List Note)
    (hnd : (l.map Note.id).Nodup) (noteId : Nat) (pr : OwnerType × Nat)
    (h : pairAtList l noteId = some pr) :
    pairAtList (l.eraseP q) noteId = some pr ∨ pairAtList (l.eraseP q) noteId = none := by
  induction l with
  | nil => simp [pairAtList] at h
  | cons n ns ih =>
    rw [List.map_cons, List.nodup_cons] at hnd
    obtain ⟨hnotin, hnd'⟩ := hnd
    cases hq : q n
    · rw [List.eraseP_cons, hq]
      simp only [cond_false]
      cases hid : (n.id == noteId)
      · simp only [pairAtList, List.find?_cons, hid] at h ⊢
        exact ih hnd' h
      · simp only [pairAtList, List.find?_cons, hid] at h ⊢
        left; exact h
    · rw [List.eraseP_cons, hq]
      simp only [cond_true]
      cases hid : (n.id == noteId)
      · simp only [pairAtList, List.find?_cons, hid] at h
        left; exact h
      · right
        simp only [pairAtList]
        rw [Option.map_eq_none', List.find?_eq_none]
        intro x hx hxid
        apply hnotin
        have hxn : x.id = n.id := by
          have h1 : x.id = noteId := by simpa using hxid
          have h2 : n.id = noteId := by simpa using hid
          rw [h1, h2]
        rw [← hxn]
        exact List.mem_map_of_mem Note.id hx

theorem pairAtList_none_eraseP (q : Note → Bool) (l : List Note) (noteId : Nat)
    (h : pairAtList l noteId = none) :
    pairAtList (l.eraseP q) noteId = none := by
  simp only [pairAtList, Option.map_eq_none', List.find?_eq_none] at h ⊢
  intro x hx
  exact h x ((List.eraseP_sublist l).subset hx)

theorem map_id_of_map_ownerView (l₁ l₂ : List Note)
    (h : l₁.map ownerView = l₂.map ownerView) :
    l₁.map Note.id = l₂.map Note.id := by
  have h2 := congrArg (List.map fun v => v.1) h
  simpa [List.map_map, Function.comp, ownerView] using h2

theorem bound_of_map_id_eq (l l' : List Note) (h : l'.map Note.id = l.map Note.id)
    (k : Nat) (hb : ∀ n ∈ l, n.id < k) : ∀ n ∈ l', n.id < k := by
  intro n hn
  have hmem : n.id ∈ l.map Note.id := h ▸ List.mem_map_of_mem Note.id hn
  obtain ⟨m, hm, hmid⟩ := List.mem_map.mp hmem
  exact hmid ▸ hb m hm

/-! ### Sorting lemmas for the variant B list -/

theorem perm_insertNoteDesc (n : Note) (l : List Note) :
    (insertNoteDesc n l).Perm (n :: l) := by
  induction l with
  | nil => exact List.Perm.refl _
  | cons m ms ih =>
    by_cases h : m.createdAt ≤ n.createdAt
    · simp [insertNoteDesc, h]
    · simp only [insertNoteDesc, if_neg h]
      exact (ih.cons m).trans (List.Perm.swap n m ms)

theorem perm_sortNewestFirst (l : List Note) : (sortNewestFirst l).Perm l := by
  induction l with
  | nil => exact List.Perm.refl _
  | cons n ns ih =>
    exact (perm_insertNoteDesc n (sortNewestFirst ns)).trans (ih.cons n)

theorem newestFirst_insertNoteDesc (n : Note) (l : List Note) (h : NewestFirst l) :
    NewestFirst (insertNoteDesc n l) := by
  induction l with
  | nil => simp [insertNoteDesc, NewestFirst]
  | cons m ms ih =>
    rw [NewestFirst, List.pairwise_cons] at h
    obtain ⟨hm, hms⟩ := h
    by_cases hle : m.createdAt ≤ n.createdAt
    · rw [NewestFirst, insertNoteDesc, if_pos hle, List.pairwise_cons]
      refine ⟨?_, ?_⟩
      · intro x hx
        rcases List.mem_cons.mp hx with rfl | hx'
        · exact hle
        · exact le_trans (hm x hx') hle
      · rw [List.pairwise_cons]
        exact ⟨hm, hms⟩
    · rw [NewestFirst, insertNoteDesc, if_neg hle, List.pairwise_cons]
      refine ⟨?_, ih hms⟩
      intro x hx
      rcases List.mem_cons.mp ((perm_insertNoteDesc n ms).mem_iff.mp hx) with rfl | hx'
      · omega
      · exact hm x hx'

theorem newestFirst_sortNewestFirst (l : List Note) : NewestFirst (sortNewestFirst l) := by
  induction l with
  | nil => simp [sortNewestFirst, NewestFirst]
  | cons n ns ih => exact newestFirst_insertNoteDesc n (sortNewestFirst ns) ih

/-! ### Owner-pair preservation (claim C6 machinery) -/

theorem updateFirst_map_ownerView_of_found (q : Note → Bool) (f : Note → Note)
    (l : List Note) (note : Note) (hfind : l.find? q = some note)
    (hf : ownerView (f note) = ownerView note) :
    (updateFirst q f l).1.map ownerView = l.map ownerView := by
  induction l with
  | nil => cases hfind
  | cons n ns ih =>
    cases hq : q n
    · rw [List.find?_cons, hq] at hfind
      simp [updateFirst, hq, ih hfind]
    · rw [List.find?_cons, hq] at hfind
      cases hfind
      simp [updateFirst, hq, hf]

theorem updateNoteA_map_ownerView (s : NoteStore) (p : Principal) (noteId : Nat)
    (title content : Option String) :
    (updateNoteA s p noteId title content).1.notes.map ownerView = s.notes.map ownerView := by
  show (updateFirst (fun n => n.id == noteId && n.ownerId == p.id)
      (fun n => { n with title := mergeField title n.title,
                         content := mergeField content n.content }) s.notes).1.map ownerView
      = s.notes.map ownerView
  exact updateFirst_map_ownerView (fun n => n.id == noteId && n.ownerId == p.id)
    (fun n => { n with title := mergeField title n.title,
                       content := mergeField content n.content })
    (fun _ => rfl) s.notes

theorem updateNoteB_map_ownerView (s : NoteStore) (p : Principal) (noteId : Nat)
    (title content : Option String) (now : Nat) :
    (updateNoteB s p noteId title content now).1.notes.map ownerView
      = s.notes.map ownerView := by
  unfold updateNoteB
  split
  · rfl
  · rename_i note hfind
    split
    · rfl
    · exact updateFirst_map_ownerView_of_found (fun n => n.id == noteId)
        (fun _ => { note with title := title, content := content, updatedAt := some now })
        s.notes note hfind rfl

theorem updateNoteA_nextId (s : NoteStore) (p : Principal) (noteId : Nat)
    (title content : Option String) :
    (updateNoteA s p noteId title content).1.nextId = s.nextId := rfl

theorem updateNoteB_nextId (s : NoteStore) (p : Principal) (noteId : Nat)
    (title content : Option String) (now : Nat) :
    (updateNoteB s p noteId title content now).1.nextId = s.nextId := by
  unfold updateNoteB
  split
  · rfl
  · split
    · rfl
    · rfl

theorem deleteNoteB_notes (s : NoteStore) (p : Principal) (noteId : Nat) :
    (deleteNoteB s p noteId).1.notes = s.notes
    ∨ (deleteNoteB s p noteId).1.notes = s.notes.eraseP (fun n => n.id == noteId) := by
  unfold deleteNoteB
  split
  · left; rfl
  · split
    · left; rfl
    · right; rfl

theorem deleteNoteB_nextId (s : NoteStore) (p : Principal) (noteId : Nat) :
    (deleteNoteB s p noteId).1.nextId = s.nextId := by
  unfold deleteNoteB
  split
  · rfl
  · split
    · rfl
    · rfl

theorem nextId_le_applyOp (s : NoteStore) (op : Op) : s.nextId ≤ (applyOp s op).nextId := by
  cases op with
  | create p title content now => exact Nat.le_succ _
  | updateA p noteId title content => exact Nat.le_of_eq (updateNoteA_nextId s p noteId title content).symm
  | updateB p noteId title content now => exact Nat.le_of_eq (updateNoteB_nextId s p noteId title content now).symm
  | deleteA p noteId => exact Nat.le_refl _
  | deleteB p noteId => exact Nat.le_of_eq (deleteNoteB_nextId s p noteId).symm

theorem WF_of_map_ownerView_eq (s : NoteStore) (notes : List Note)
    (h : notes.map ownerView = s.notes.map ownerView) (hwf : WF s) :
    WF ⟨notes, s.nextId⟩ := by
  obtain ⟨hnd, hb⟩ := hwf
  have hid := map_id_of_map_ownerView notes s.notes h
  exact ⟨hid ▸ hnd, bound_of_map_id_eq s.notes notes hid s.nextId hb⟩

theorem WF_of_sublist (s : NoteStore) (notes : List Note)
    (h : notes.Sublist s.notes) (hwf : WF s) : WF ⟨notes, s.nextId⟩ := by
  obtain ⟨hnd, hb⟩ := hwf
  exact ⟨(h.map Note.id).nodup hnd, fun n hn => hb n (h.subset hn)⟩

theorem WF_applyOp (s : NoteStore) (op : Op) (hwf : WF s) : WF (applyOp s op) := by
  obtain ⟨hnd, hb⟩ := hwf
  cases op with
  | create p title content now =>
    constructor
    · simp only [applyOp, createNote, List.map_append, List.map_cons, List.map_nil]
      rw [List.nodup_append]
      refine ⟨hnd, List.nodup_singleton _, ?_⟩
      intro x hx hx2
      rcases List.mem_singleton.mp hx2 with rfl
      obtain ⟨m, hm, hmid⟩ := List.mem_map.mp hx
      exact Nat.lt_irrefl _ (hmid ▸ hb m hm)
    · intro n hn
      simp only [applyOp, createNote] at hn ⊢
      rcases List.mem_append.mp hn with hn' | hn'
      · exact Nat.lt_succ_of_lt (hb n hn')
      · rcases List.mem_singleton.mp hn' with rfl
        exact Nat.lt_succ_self _
  | updateA p noteId title content =>
    have h := updateNoteA_map_ownerView s p noteId title content
    have h2 := WF_of_map_ownerView_eq s _ h ⟨hnd, hb⟩
    have h3 : applyOp s (Op.updateA p noteId title content)
        = ⟨(updateNoteA s p noteId title content).1.notes, s.nextId⟩ := rfl
    rw [h3]; exact h2
  | updateB p noteId title content now =>
    have h := updateNoteB_map_ownerView s p noteId title content now
    have h2 := WF_of_map_ownerView_eq s _ h ⟨hnd, hb⟩
    have h3 : applyOp s (Op.updateB p noteId title content now)
        = ⟨(updateNoteB s p noteId title content now).1.notes, s.nextId⟩ := by
      show (updateNoteB s p noteId title content now).1 = _
      cases h4 : (updateNoteB s p noteId title content now).1 with
      | mk notes nid =>
        have : nid = s.nextId := by
          have := updateNoteB_nextId s p noteId title content now
          rw [h4] at this; exact this
        simp [h4, this]
    rw [h3]; exact h2
  | deleteA p noteId =>
    exact WF_of_sublist s _ (List.eraseP_sublist s.notes) ⟨hnd, hb⟩
  | deleteB p noteId =>
    have h3 : applyOp s (Op.deleteB p noteId)
        = ⟨(deleteNoteB s p noteId).1.notes, s.nextId⟩ := by
      show (deleteNoteB s p noteId).1 = _
      cases h4 : (deleteNoteB s p noteId).1 with
      | mk notes nid =>
        have : nid = s.nextId := by
          have := deleteNoteB_nextId s p noteId
          rw [h4] at this; exact this
        simp [h4, this]
    rw [h3]
    rcases deleteNoteB_notes s p noteId with h | h
    · rw [h]; exact ⟨hnd, hb⟩
    · rw [h]; exact WF_of_sublist s _ (List.eraseP_sublist s.notes) ⟨hnd, hb⟩

theorem pair_applyOp (s : NoteStore) (op : Op) (noteId : Nat) (pr : OwnerType × Nat)
    (hwf : WF s) (hlt : noteId < s.nextId)
    (h : ownerPairAt s noteId = some pr ∨ ownerPairAt s noteId = none) :
    ownerPairAt (applyOp s op) noteId = some pr
    ∨ ownerPairAt (applyOp s op) noteId = none := by
  obtain ⟨hnd, hb⟩ := hwf
  cases op with
  | create p title content now =>
    have hne : ∀ n ∈ [(createNote s p title content now).2],
        (n.id == noteId) = false := by
      intro n hn
      rcases List.mem_singleton.mp hn with rfl
      simp only [createNote]
      simp only [beq_eq_false_iff_ne, ne_eq]
      exact fun heq => Nat.lt_irrefl _ (heq ▸ hlt)
    rcases h with h | h
    · left
      exact pairAtList_append_right s.notes _ noteId pr h
    · right
      exact pairAtList_none_append s.notes _ noteId h hne
  | updateA p noteId' title content =>
    have hcongr := pairAtList_congr _ s.notes
      (updateNoteA_map_ownerView s p noteId' title content) noteId
    rcases h with h | h
    · left; exact hcongr.trans h
    · right; exact hcongr.trans h
  | updateB p noteId' title content now =>
    have hcongr := pairAtList_congr _ s.notes
      (updateNoteB_map_ownerView s p noteId' title content now) noteId
    rcases h with h | h
    · left; exact hcongr.trans h
    · right; exact hcongr.trans h
  | deleteA p noteId' =>
    rcases h with h | h
    · exact pairAtList_eraseP _ s.notes hnd noteId pr h
    · right; exact pairAtList_none_eraseP _ s.notes noteId h
  | deleteB p noteId' =>
    have hpairs : ownerPairAt (applyOp s (Op.deleteB p noteId')) noteId
        = pairAtList (deleteNoteB s p noteId').1.notes noteId := rfl
    rcases deleteNoteB_notes s p noteId' with hn | hn
    · rw [hpairs, hn]; exact h
    · rw [hpairs, hn]
      rcases h with h | h
      · exact pairAtList_eraseP _ s.notes hnd noteId pr h
      · right; exact pairAtList_none_eraseP _ s.notes noteId h

theorem pair_applyOps (ops : List Op) (s : NoteStore) (noteId : Nat) (pr : OwnerType × Nat)
    (hwf : WF s) (hlt : noteId < s.nextId)
    (h : ownerPairAt s noteId = some pr ∨ ownerPairAt s noteId = none) :
    ownerPairAt (applyOps s ops) noteId = some pr
    ∨ ownerPairAt (applyOps s ops) noteId = none := by
  induction ops generalizing s with
  | nil => exact h
  | cons op ops ih =>
    have hstep : applyOps s (op :: ops) = applyOps (applyOp s op) ops := rfl
    rw [hstep]
    exact ih (applyOp s op) (WF_applyOp s op hwf)
      (Nat.lt_of_lt_of_le hlt (nextId_le_applyOp s op))
      (pair_applyOp s op noteId pr hwf hlt h)

/-! ### Claim theorems -/

/-- Claim C5: the two implementation variants disagree on delete
semantics: variant A always reports success (idempotent at the API
level, also for missing or non-owned note ids), while variant B fails
with NotFound when the note id is missing; hence the two embedded
delete operations differ on every missing-note input. -/
theorem C5_delete_variants_disagree :
    (∀ (s : NoteStore) (p : Principal) (noteId : Nat),
       (deleteNoteA s p noteId).2 = DeleteResp.success)
    ∧ (∀ (s : NoteStore) (p : Principal) (noteId : Nat),
       s.notes.find? (fun n => n.id == noteId) = none →
       (deleteNoteB s p noteId).2 = DeleteResp.notFound
       ∧ (deleteNoteA s p noteId).2 ≠ (deleteNoteB s p noteId).2) := by
  constructor
  · intro s p noteId; rfl
  · intro s p noteId h
    have hB : (deleteNoteB s p noteId).2 = DeleteResp.notFound := by
      unfold deleteNoteB
      rw [h]
    refine ⟨hB, ?_⟩
    rw [hB]
    exact fun hc => DeleteResp.noConfusion hc

/-- Witness for C5 at the empty store: variant B answers NotFound
where variant A answers success. -/
theorem C5_delete_variants_disagree_witness :
    (deleteNoteB ⟨[], 0⟩ ⟨OwnerType.user, 0⟩ 0).2 = DeleteResp.notFound
    ∧ (deleteNoteA ⟨[], 0⟩ ⟨OwnerType.user, 0⟩ 0).2
      ≠ (deleteNoteB ⟨[], 0⟩ ⟨OwnerType.user, 0⟩ 0).2 :=
  C5_delete_variants_disagree.2 ⟨[], 0⟩ ⟨OwnerType.user, 0⟩ 0 rfl

/-- Claim C6: a note's (ownerType, ownerId) pair never changes after
creation: under any sequence of create/update/delete requests from
either variant, run on a well-formed store, a note id that still
resolves to a note resolves to one with its original owner pair. -/
theorem C6_owner_pair_never_changes (s : NoteStore) (ops : List Op) (noteId : Nat)
    (pr pr' : OwnerType × Nat) (hwf : WF s)
    (h : ownerPairAt s noteId = some pr)
    (h' : ownerPairAt (applyOps s ops) noteId = some pr') : pr' = pr := by
  have hlt : noteId < s.nextId := by
    cases hf : s.notes.find? (fun m => m.id == noteId) with
    | none => simp [ownerPairAt, pairAtList, hf] at h
    | some n =>
      have hmem := List.mem_of_find?_eq_some hf
      have hid : n.id = noteId := by simpa using List.find?_some hf
      exact hid ▸ hwf.2 n hmem
  rcases pair_applyOps ops s noteId pr hwf hlt (Or.inl h) with hsome | hnone
  · exact Option.some.inj (h'.symm.trans hsome)
  · exact absurd (h'.symm.trans hnone) (by simp)

/-- Witness for C6: a drawer-owned note keeps its pair through an
owner update (variant B), a foreign update and a foreign delete
(variant A). -/
theorem C6_owner_pair_never_changes_witness :
    ((OwnerType.drawer, 5) : OwnerType × Nat) = (OwnerType.drawer, 5) :=
  C6_owner_pair_never_changes ⟨[noteD5], 1⟩
    [Op.updateB ⟨OwnerType.drawer, 5⟩ 0 (some "T") (some "C") 9,
     Op.updateA ⟨OwnerType.user, 7⟩ 0 (some "x") none,
     Op.deleteA ⟨OwnerType.user, 7⟩ 0]
    0 (OwnerType.drawer, 5) (OwnerType.drawer, 5)
    (by constructor <;> decide) (by decide) (by decide)

/-- Claim C7: registering an email for which a user record already
exists fails with the duplicate error in both variants, and the user
collection is returned unchanged (no second record is created). -/
theorem C7_duplicate_email (hashF : String → String) (users : List User) (freshId : Nat)
    (e pw : String) (u : User) (hu : u ∈ users) (he : u.email = e)
    (hne : e ≠ "") (hpw : pw ≠ "") :
    registerA hashF users freshId (some e) (some pw)
      = (users, AccountResp.badRequest "User already exists")
    ∧ registerB hashF users freshId (some e) (some pw)
      = (users, AccountResp.badRequest "Email already in use") := by
  have hfalsy : (falsy (some e) || falsy (some pw)) = false := by
    simp [falsy, hne, hpw]
  have hsome : ∃ v, users.find? (fun x => x.email == e) = some v := by
    rw [← Option.isSome_iff_exists, List.find?_isSome]
    exact ⟨u, hu, by simp [he]⟩
  obtain ⟨v, hv⟩ := hsome
  constructor
  · simp [registerA, hfalsy, Option.getD_some, hv]
  · simp [registerB, hfalsy, Option.getD_some, hv]

/-- Witness for C7: re-registering the demo user's email fails with
the duplicate errors and leaves the collection unchanged. -/
theorem C7_duplicate_email_witness :
    registerA (fun s => s) demoUsers 1 (some "a@x.com") (some "zzz")
      = (demoUsers, AccountResp.badRequest "User already exists")
    ∧ registerB (fun s => s) demoUsers 1 (some "a@x.com") (some "zzz")
      = (demoUsers, AccountResp.badRequest "Email already in use") :=
  C7_duplicate_email (fun s => s) demoUsers 1 "a@x.com" "zzz" demoUser
    (by decide) (by decide) (by decide) (by decide)

/-- Claim C9: a create immediately followed by a list for the same
principal: both variants' list contain the just-created note, which
carries the requested title and content and the caller's owner pair. -/
theorem C9_create_then_list (s : NoteStore) (p : Principal) (now : Nat) :
    (createNote s p (some "A") (some "B") now).2
      ∈ listNotesA (createNote s p (some "A") (some "B") now).1 p
    ∧ (createNote s p (some "A") (some "B") now).2
      ∈ listNotesB (createNote s p (some "A") (some "B") now).1 p
    ∧ (createNote s p (some "A") (some "B") now).2.title = some "A"
    ∧ (createNote s p (some "A") (some "B") now).2.content = some "B"
    ∧ (createNote s p (some "A") (some "B") now).2.ownerType = p.type
    ∧ (createNote s p (some "A") (some "B") now).2.ownerId = p.id := by
  have hmem : (createNote s p (some "A") (some "B") now).2
      ∈ (createNote s p (some "A") (some "B") now).1.notes.filter
        (fun n => n.ownerType == p.type && n.ownerId == p.id) := by
    rw [List.mem_filter]
    refine ⟨?_, by simp [createNote]⟩
    simp [createNote]
  exact ⟨hmem, (perm_sortNewestFirst _).mem_iff.mpr hmem, rfl, rfl, rfl, rfl⟩

/-- Claim C10: in variant B, a PUT whose body omits title and content
replaces both fields with the absent value instead of preserving them:
the response reports success with the erased note, `updatedAt` is
stamped, and the stored note under that id has lost both fields. -/
theorem C10_empty_body_erases (s : NoteStore) (p : Principal) (noteId now : Nat) (note : Note)
    (hfind : s.notes.find? (fun n => n.id == noteId) = some note)
    (hty : note.ownerType = p.type) (hid : note.ownerId = p.id) :
    (updateNoteB s p noteId none none now).2
      = NoteResp.ok { note with title := none, content := none, updatedAt := some now }
    ∧ (updateNoteB s p noteId none none now).1.notes.find? (fun n => n.id == noteId)
      = some { note with title := none, content := none, updatedAt := some now } := by
  have hcond : (note.ownerId != p.id || note.ownerType != p.type) = false := by
    simp [hid, hty]
  have hqnote := List.find?_some hfind
  constructor
  · simp [updateNoteB, hfind, hcond]
  · have hstep := find?_updateFirst (fun n => n.id == noteId)
      (fun _ => { note with title := none, content := none, updatedAt := some now })
      s.notes note hfind hqnote
    simp only [updateNoteB, hfind, hcond, Bool.false_eq_true, if_false]
    simpa using hstep

/-- Witness for C10: an empty-body PUT on the demo drawer note erases
title and content and stamps `updatedAt := 9`. -/
theorem C10_empty_body_erases_witness :
    (updateNoteB ⟨[noteD5], 1⟩ ⟨OwnerType.drawer, 5⟩ 0 none none 9).2
      = NoteResp.ok { noteD5 with title := none, content := none, updatedAt := some 9 }
    ∧ (updateNoteB ⟨[noteD5], 1⟩ ⟨OwnerType.drawer, 5⟩ 0 none none 9).1.notes.find?
        (fun n => n.id == 0)
      = some { noteD5 with title := none, content := none, updatedAt := some 9 } :=
  C10_empty_body_erases ⟨[noteD5], 1⟩ ⟨OwnerType.drawer, 5⟩ 0 9 noteD5 rfl rfl rfl

/-- Counterexample to C1 as stated: principal (user, 5) sends a
variant A update and delete for the note owned by (drawer, 5).
Variant A filters on ownerId only and never answers Forbidden: the
foreign note is modified, returned to the caller, and deleted. -/
theorem C1_counterexample :
    (updateNoteA ⟨[noteD5], 1⟩ ⟨OwnerType.user, 5⟩ 0 (some "hacked") none).1.notes
      = [{ noteD5 with title := some "hacked" }]
    ∧ (updateNoteA ⟨[noteD5], 1⟩ ⟨OwnerType.user, 5⟩ 0 (some "hacked") none).2
      = some { noteD5 with title := some "hacked" }
    ∧ (deleteNoteA ⟨[noteD5], 1⟩ ⟨OwnerType.user, 5⟩ 0).1.notes = []
    ∧ (deleteNoteA ⟨[noteD5], 1⟩ ⟨OwnerType.user, 5⟩ 0).2 = DeleteResp.success :=
  ⟨rfl, rfl, rfl, rfl⟩

/-- Claim C1 (amended): in variant B, updating or deleting a note
whose (ownerType, ownerId) differs from the caller's principal yields
Forbidden and leaves the store unchanged.  Variant A never answers
Forbidden: it leaves every note with a different ownerId unmodified,
returns only notes whose ownerId is the caller's (update), and always
reports success (delete); it checks only ownerId, so it does not
protect a note whose ownerId equals the caller's id while its
ownerType differs. -/
theorem C1_amended_cross_owner :
    (∀ (s : NoteStore) (p : Principal) (noteId : Nat) (title content : Option String)
       (now : Nat) (note : Note),
       s.notes.find? (fun n => n.id == noteId) = some note →
       (note.ownerType, note.ownerId) ≠ (p.type, p.id) →
       updateNoteB s p noteId title content now = (s, NoteResp.forbidden)
       ∧ deleteNoteB s p noteId = (s, DeleteResp.forbidden))
    ∧ (∀ (s : NoteStore) (p : Principal) (noteId : Nat) (title content : Option String)
       (note : Note), note ∈ s.notes → note.ownerId ≠ p.id →
       note ∈ (updateNoteA s p noteId title content).1.notes
       ∧ note ∈ (deleteNoteA s p noteId).1.notes
       ∧ ∀ m, (updateNoteA s p noteId title content).2 = some m → m.ownerId = p.id)
    ∧ (∀ (s : NoteStore) (p : Principal) (noteId : Nat),
       (deleteNoteA s p noteId).2 = DeleteResp.success) := by
  refine ⟨?_, ?_, ?_⟩
  · intro s p noteId title content now note hfind hne
    have hcond : (note.ownerId != p.id || note.ownerType != p.type) = true := by
      by_cases h1 : note.ownerId = p.id
      · by_cases h2 : note.ownerType = p.type
        · exact absurd (by rw [h1, h2]) hne
        · simp [h2]
      · simp [h1]
    constructor
    · simp [updateNoteB, hfind, hcond]
    · simp [deleteNoteB, hfind, hcond]
  · intro s p noteId title content note hmem hne
    have hq : (note.id == noteId && note.ownerId == p.id) = false := by
      simp [hne]
    refine ⟨?_, ?_, ?_⟩
    · exact mem_updateFirst_of_neg _ _ s.notes note hmem hq
    · show note ∈ s.notes.eraseP (fun n => n.id == noteId && n.ownerId == p.id)
      exact (List.mem_eraseP_of_neg (by simp [hq])).mpr hmem
    · intro m hm
      have hsnd : (updateNoteA s p noteId title content).2
          = (s.notes.find? (fun n => n.id == noteId && n.ownerId == p.id)).map
            (fun n => { n with title := mergeField title n.title,
                               content := mergeField content n.content }) :=
        updateFirst_snd _ _ s.notes
      rw [hsnd] at hm
      cases hfind : s.notes.find? (fun n => n.id == noteId && n.ownerId == p.id) with
      | none => rw [hfind] at hm; cases hm
      | some v =>
        rw [hfind, Option.map_some'] at hm
        have hv := List.find?_some hfind
        have hvid : v.ownerId = p.id := by
          simp only [Bool.and_eq_true, beq_iff_eq] at hv
          exact hv.2
        have hmv := Option.some.inj hm
        rw [← hmv]
        exact hvid
  · intro s p noteId
    rfl

/-- Witness for C1 (amended): the caller (user, 7) neither changes nor
receives the drawer-owned demo note in either variant. -/
theorem C1_amended_cross_owner_witness :
    (updateNoteB ⟨[noteD5], 1⟩ ⟨OwnerType.user, 7⟩ 0 (some "x") none 3
       = (⟨[noteD5], 1⟩, NoteResp.forbidden)
     ∧ deleteNoteB ⟨[noteD5], 1⟩ ⟨OwnerType.user, 7⟩ 0
       = (⟨[noteD5], 1⟩, DeleteResp.forbidden))
    ∧ (noteD5 ∈ (updateNoteA ⟨[noteD5], 1⟩ ⟨OwnerType.user, 7⟩ 0 (some "x") none).1.notes
       ∧ noteD5 ∈ (deleteNoteA ⟨[noteD5], 1⟩ ⟨OwnerType.user, 7⟩ 0).1.notes
       ∧ ∀ m, (updateNoteA ⟨[noteD5], 1⟩ ⟨OwnerType.user, 7⟩ 0 (some "x") none).2 = some m →
           m.ownerId = 7) :=
  ⟨C1_amended_cross_owner.1 ⟨[noteD5], 1⟩ ⟨OwnerType.user, 7⟩ 0 (some "x") none 3 noteD5
     rfl (by decide),
   C1_amended_cross_owner.2.1 ⟨[noteD5], 1⟩ ⟨OwnerType.user, 7⟩ 0 (some "x") none noteD5
     (by decide) (by decide)⟩

/-- Counterexample to C2 as stated: on the empty store, a variant A
update of a missing note id answers 200 with a null body and leaves
the store unchanged — not NotFound. -/
theorem C2_counterexample :
    updateNoteA ⟨[], 0⟩ ⟨OwnerType.user, 1⟩ 7 (some "x") (some "y") = (⟨[], 0⟩, none) :=
  rfl

/-- Claim C2 (amended): variant B implements the claimed contract —
NotFound when the id is absent, Forbidden on owner mismatch, otherwise
replace title/content with the supplied values, stamp updatedAt and
return the updated note.  Variant A instead answers 200 with a null
body whenever its (id, ownerId) filter matches nothing — for a missing
id as well as a foreign note — and never answers NotFound or
Forbidden, nor stamps updatedAt. -/
theorem C2_amended_update_contract :
    (∀ (s : NoteStore) (p : Principal) (noteId : Nat) (title content : Option String)
       (now : Nat),
       s.notes.find? (fun n => n.id == noteId) = none →
       updateNoteB s p noteId title content now = (s, NoteResp.notFound))
    ∧ (∀ (s : NoteStore) (p : Principal) (noteId : Nat) (title content : Option String)
       (now : Nat) (note : Note),
       s.notes.find? (fun n => n.id == noteId) = some note →
       (note.ownerType, note.ownerId) ≠ (p.type, p.id) →
       updateNoteB s p noteId title content now = (s, NoteResp.forbidden))
    ∧ (∀ (s : NoteStore) (p : Principal) (noteId : Nat) (title content : Option String)
       (now : Nat) (note : Note),
       s.notes.find? (fun n => n.id == noteId) = some note →
       note.ownerType = p.type → note.ownerId = p.id →
       (updateNoteB s p noteId title content now).2
         = NoteResp.ok { note with title := title, content := content, updatedAt := some now })
    ∧ (∀ (s : NoteStore) (p : Principal) (noteId : Nat) (title content : Option String),
       s.notes.find? (fun n => n.id == noteId && n.ownerId == p.id) = none →
       updateNoteA s p noteId title content = (s, none)) := by
  refine ⟨?_, ?_, ?_, ?_⟩
  · intro s p noteId title content now h
    simp [updateNoteB, h]
  · intro s p noteId title content now note hfind hne
    have hcond : (note.ownerId != p.id || note.ownerType != p.type) = true := by
      by_cases h1 : note.ownerId = p.id
      · by_cases h2 : note.ownerType = p.type
        · exact absurd (by rw [h1, h2]) hne
        · simp [h2]
      · simp [h1]
    simp [updateNoteB, hfind, hcond]
  · intro s p noteId title content now note hfind hty hid
    have hcond : (note.ownerId != p.id || note.ownerType != p.type) = false := by
      simp [hid, hty]
    simp [updateNoteB, hfind, hcond]
  · intro s p noteId title content h
    have hfst := updateFirst_fst_of_none (fun n => n.id == noteId && n.ownerId == p.id)
      (fun n => { n with title := mergeField title n.title,
                         content := mergeField content n.content }) s.notes h
    have hsnd : (updateNoteA s p noteId title content).2
        = (s.notes.find? (fun n => n.id == noteId && n.ownerId == p.id)).map
          (fun n => { n with title := mergeField title n.title,
                             content := mergeField content n.content }) :=
      updateFirst_snd _ _ s.notes
    have h1 : (updateNoteA s p noteId title content).1 = s := by
      show ({ s with notes := (updateFirst _ _ s.notes).1 } : NoteStore) = s
      rw [hfst]
    have h2 : (updateNoteA s p noteId title content).2 = none := by
      rw [hsnd, h]
      rfl
    calc updateNoteA s p noteId title content
        = ((updateNoteA s p noteId title content).1,
           (updateNoteA s p noteId title content).2) := rfl
      _ = (s, none) := by rw [h1, h2]

/-- Witness for C2 (amended), covering all four branches on concrete
stores. -/
theorem C2_amended_update_contract_witness :
    updateNoteB ⟨[], 0⟩ ⟨OwnerType.user, 1⟩ 7 (some "x") none 3
      = (⟨[], 0⟩, NoteResp.notFound)
    ∧ updateNoteB ⟨[noteD5], 1⟩ ⟨OwnerType.user, 7⟩ 0 (some "x") none 3
      = (⟨[noteD5], 1⟩, NoteResp.forbidden)
    ∧ (updateNoteB ⟨[noteD5], 1⟩ ⟨OwnerType.drawer, 5⟩ 0 (some "x") none 3).2
      = NoteResp.ok { noteD5 with title := some "x", content := none, updatedAt := some 3 }
    ∧ updateNoteA ⟨[noteD5], 1⟩ ⟨OwnerType.user, 7⟩ 0 (some "x") none
      = (⟨[noteD5], 1⟩, none) :=
  ⟨C2_amended_update_contract.1 ⟨[], 0⟩ ⟨OwnerType.user, 1⟩ 7 (some "x") none 3 rfl,
   C2_amended_update_contract.2.1 ⟨[noteD5], 1⟩ ⟨OwnerType.user, 7⟩ 0 (some "x") none 3 noteD5
     rfl (by decide),
   C2_amended_update_contract.2.2.1 ⟨[noteD5], 1⟩ ⟨OwnerType.drawer, 5⟩ 0 (some "x") none 3
     noteD5 rfl rfl rfl,
   C2_amended_update_contract.2.2.2 ⟨[noteD5], 1⟩ ⟨OwnerType.user, 7⟩ 0 (some "x") none rfl⟩

/-- Counterexample to C3 as stated: two notes of the same owner stored
in creation order (times 0 and 5); variant A's list returns them in
store order, oldest first — not newest-first. -/
theorem C3_counterexample :
    listNotesA ⟨[noteOld, noteNew], 2⟩ ⟨OwnerType.user, 1⟩ = [noteOld, noteNew]
    ∧ ¬ NewestFirst (listNotesA ⟨[noteOld, noteNew], 2⟩ ⟨OwnerType.user, 1⟩) := by
  refine ⟨rfl, ?_⟩
  intro hcontra
  have heq : listNotesA ⟨[noteOld, noteNew], 2⟩ ⟨OwnerType.user, 1⟩
      = [noteOld, noteNew] := rfl
  rw [heq, NewestFirst, List.pairwise_cons] at hcontra
  have hle := hcontra.1 noteNew (List.mem_cons_self _ _)
  simp [noteOld, noteNew] at hle

/-- Claim C3 (amended): both variants return exactly the caller's
notes — a note is listed iff it is stored and carries the caller's
(ownerType, ownerId) — and never a note of another owner pair.
Variant B orders the result newest-first by creation time; variant A
performs no sort and returns the notes in store (insertion) order. -/
theorem C3_amended_list :
    (∀ (s : NoteStore) (p : Principal) (n : Note),
       n ∈ listNotesA s p ↔ n ∈ s.notes ∧ n.ownerType = p.type ∧ n.ownerId = p.id)
    ∧ (∀ (s : NoteStore) (p : Principal) (n : Note),
       n ∈ listNotesB s p ↔ n ∈ s.notes ∧ n.ownerType = p.type ∧ n.ownerId = p.id)
    ∧ (∀ (s : NoteStore) (p : Principal), NewestFirst (listNotesB s p))
    ∧ (∀ (s : NoteStore) (p : Principal), (listNotesA s p).Sublist s.notes) := by
  refine ⟨?_, ?_, ?_, ?_⟩
  · intro s p n
    simp [listNotesA, List.mem_filter]
  · intro s p n
    have hperm : listNotesB s p = sortNewestFirst (listNotesA s p) := rfl
    rw [hperm, (perm_sortNewestFirst _).mem_iff]
    simp [listNotesA, List.mem_filter]
  · intro s p
    exact newestFirst_sortNewestFirst _
  · intro s p
    exact List.filter_sublist s.notes

/-- Counterexample to C4 as stated: with the demo user registered,
variant A's login answers `User not found` for an unknown email but
`Wrong password` for a known email with a bad password — two
distinguishable failures revealing whether the account exists. -/
theorem C4_counterexample :
    loginA strEq demoUsers (some "b@x.com") (some "pw1")
      = AccountResp.badRequest "User not found"
    ∧ loginA strEq demoUsers (some "a@x.com") (some "wrong")
      = AccountResp.badRequest "Wrong password"
    ∧ AccountResp.badRequest "User not found" ≠ AccountResp.badRequest "Wrong password" :=
  ⟨rfl, rfl, by decide⟩

/-- Claim C4 (amended): variant B answers the identical generic
`Invalid credentials` error for an unknown email and for a password
hash mismatch, so its two failure runs are indistinguishable; variant
A instead answers the distinct errors `User not found` and
`Wrong password`. -/
theorem C4_amended_login_errors :
    (∀ (compare : String → String → Bool) (users : List User) (e pw : String),
       e ≠ "" → pw ≠ "" →
       (users.find? (fun u => u.email == e) = none →
          loginB compare users (some e) (some pw)
            = AccountResp.badRequest "Invalid credentials")
       ∧ (∀ u, users.find? (fun u' => u'.email == e) = some u →
          compare pw u.passwordHash = false →
          loginB compare users (some e) (some pw)
            = AccountResp.badRequest "Invalid credentials"))
    ∧ (∀ (compare : String → String → Bool) (users : List User) (e pw : String),
       (users.find? (matchEmail (some e)) = none →
          loginA compare users (some e) (some pw)
            = AccountResp.badRequest "User not found")
       ∧ (∀ u, users.find? (matchEmail (some e)) = some u →
          compare pw u.passwordHash = false →
          loginA compare users (some e) (some pw)
            = AccountResp.badRequest "Wrong password")) := by
  constructor
  · intro compare users e pw hne hpw
    have hfalsy : (falsy (some e) || falsy (some pw)) = false := by
      simp [falsy, hne, hpw]
    constructor
    · intro hfind
      simp [loginB, hfalsy, hfind]
    · intro u hfind hcmp
      simp [loginB, hfalsy, hfind, hcmp]
  · intro compare users e pw
    constructor
    · intro hfind
      simp [loginA, hfind]
    · intro u hfind hcmp
      simp [loginA, hfind, hcmp]

/-- Witness for C4 (amended): variant B answers the same error on the
demo store for an unknown email and for a wrong password. -/
theorem C4_amended_login_errors_witness :
    loginB strEq demoUsers (some "b@x.com") (some "pw1")
      = AccountResp.badRequest "Invalid credentials"
    ∧ loginB strEq demoUsers (some "a@x.com") (some "wrong")
      = AccountResp.badRequest "Invalid credentials" :=
  ⟨(C4_amended_login_errors.1 strEq demoUsers "b@x.com" "pw1" (by decide) (by decide)).1 rfl,
   (C4_amended_login_errors.1 strEq demoUsers "a@x.com" "wrong" (by decide) (by decide)).2
     demoUser rfl (by decide)⟩

/-- Counterexample to C8 as stated: a variant A login request with a
stored matching email and a missing password does not produce a 400
validation error — the missing field reaches bcrypt.compare, which
raises, and the exception escapes the handler. -/
theorem C8_counterexample :
    loginA strEq demoUsers (some "a@x.com") none = AccountResp.exception
    ∧ AccountResp.exception ≠ AccountResp.badRequest "email and password required" :=
  ⟨rfl, by decide⟩

/-- Claim C8 (amended): every variant B account endpoint, and variant
A's register and drawer-create, validate required fields first: a
missing or empty field yields the 400 validation message and the store
is unchanged, and the hashing primitive is never reached.  Variant A's
two login endpoints perform no validation: when the store lookup
matches an account and the password is absent, the request reaches
bcrypt.compare and raises an uncaught exception instead of returning a
validation error. -/
theorem C8_amended_validation :
    (∀ (hashF : String → String) (users : List User) (freshId : Nat)
       (email password : Option String), (falsy email || falsy password) = true →
       registerA hashF users freshId email password
         = (users, AccountResp.badRequest "Email and password required")
       ∧ registerB hashF users freshId email password
         = (users, AccountResp.badRequest "email and password required"))
    ∧ (∀ (hashF : String → String) (drawers : List Drawer) (freshId : Nat)
       (drawerName password : Option String), (falsy drawerName || falsy password) = true →
       createDrawerA hashF drawers freshId drawerName password
         = (drawers, AccountResp.badRequest "Drawer name and password required")
       ∧ createDrawerB hashF drawers freshId drawerName password
         = (drawers, AccountResp.badRequest "drawerName and password required"))
    ∧ (∀ (compare : String → String → Bool) (users : List User)
       (email password : Option String), (falsy email || falsy password) = true →
       loginB compare users email password
         = AccountResp.badRequest "email and password required")
    ∧ (∀ (compare : String → String → Bool) (drawers : List Drawer)
       (drawerName password : Option String), (falsy drawerName || falsy password) = true →
       loginDrawerB compare drawers drawerName password
         = AccountResp.badRequest "drawerName and password required")
    ∧ (∀ (compare : String → String → Bool) (users : List User) (email : Option String)
       (u : User), users.find? (matchEmail email) = some u →
       loginA compare users email none = AccountResp.exception)
    ∧ (∀ (compare : String → String → Bool) (drawers : List Drawer)
       (drawerName : Option String) (d : Drawer),
       drawers.find? (matchDrawerName drawerName) = some d →
       loginDrawerA compare drawers drawerName none = AccountResp.exception) := by
  refine ⟨?_, ?_, ?_, ?_, ?_, ?_⟩
  · intro hashF users freshId email password h
    exact ⟨by simp [registerA, h], by simp [registerB, h]⟩
  · intro hashF drawers freshId drawerName password h
    exact ⟨by simp [createDrawerA, h], by simp [createDrawerB, h]⟩
  · intro compare users email password h
    simp [loginB, h]
  · intro compare drawers drawerName password h
    simp [loginDrawerB, h]
  · intro compare users email u hfind
    simp [loginA, hfind]
  · intro compare drawers drawerName d hfind
    simp [loginDrawerA, hfind]

/-- Witness for C8 (amended): validation on empty-field requests and
the variant A login exception, on concrete stores. -/
theorem C8_amended_validation_witness :
    registerA (fun s => s) demoUsers 1 none (some "pw")
      = (demoUsers, AccountResp.badRequest "Email and password required")
    ∧ loginB strEq demoUsers (some "a@x.com") none
      = AccountResp.badRequest "email and password required"
    ∧ loginA strEq demoUsers (some "a@x.com") none = AccountResp.exception :=
  ⟨(C8_amended_validation.1 (fun s => s) demoUsers 1 none (some "pw") rfl).1,
   C8_amended_validation.2.2.1 strEq demoUsers (some "a@x.com") none rfl,
   C8_amended_validation.2.2.2.2.1 strEq demoUsers (some "a@x.com") demoUser rfl⟩
